import Mathlib

/-!
Verification of the query/filter translation engine of the sme-os backend.

The definitions below are a shallow embedding of the TypeScript sources:
  - backend/src/dynamic-entities/filters/filter.service.ts  (FilterService)
  - backend/src/dynamic-entities/services/query.service.ts  (QueryService)
  - backend/src/validation/validation.service.ts            (ValidationService)

JavaScript strings are embedded as lists of characters (`Str`), JSON values as
the inductive `JSValue` (JS numbers are modelled as exact rationals; the
floating-point rounding of JS numbers is not modelled, and all values
exercised here are small integers), and thrown `BadRequestException`s as the
`Except` monad with a structured error type carrying each throw site's
message payload.
-/

namespace SmeOS

/-- A JavaScript string, embedded as its list of characters. -/
abbrev Str := List Char

/-- Coercion from Lean string literals to the `Str` embedding. -/
def S (s : String) : Str := s.data

/-- Characters treated as whitespace by JS `String.prototype.trim`
(the ASCII fragment; exotic Unicode space code points are not modelled). -/
def isJsWhitespace (c : Char) : Bool :=
  c = ' ' || c = '\t' || c = '\n' || c = '\r' || c = '\x0b' || c = '\x0c'

/-- JS `value.trim()`: strip leading and trailing whitespace. -/
def trimChars (s : Str) : Str :=
  ((s.dropWhile isJsWhitespace).reverse.dropWhile isJsWhitespace).reverse

/-- JS `value.toLowerCase()` (ASCII fragment). -/
def toLowerStr (s : Str) : Str := s.map Char.toLower

/-- JS `String.prototype.split` with a single-character separator:
always returns at least one (possibly empty) piece. -/
def splitOnChar (c : Char) : Str → List Str
  | [] => [[]]
  | x :: xs =>
    if x = c then [] :: splitOnChar c xs
    else
      match splitOnChar c xs with
      | [] => [[x]]
      | y :: ys => (x :: y) :: ys

/-- Digits of a decimal literal folded into a natural number. -/
def digitsToNat (s : Str) : Nat :=
  s.foldl (fun acc c => 10 * acc + (c.toNat - '0'.toNat)) 0

/-- The exponent suffix of a JS decimal numeric literal: an optional sign
followed by at least one digit, consuming the whole rest of the string. -/
def parseExponent (s : Str) : Option Int :=
  let (sgn, rest) :=
    match s with
    | '+' :: r => ((1 : Int), r)
    | '-' :: r => ((-1 : Int), r)
    | r => ((1 : Int), r)
  if rest ≠ [] ∧ rest.all Char.isDigit then some (sgn * digitsToNat rest) else none

/-- A JS finite decimal numeric literal (already trimmed, nonempty):
optional sign, integer digits, optional fraction, optional exponent.
This models the `StrDecimalLiteral` fragment of the JS `Number` conversion;
hexadecimal/binary/octal literals and `Infinity` are outside the modelled
fragment (they never occur in the inputs considered here). -/
def jsFiniteDecimal (t : Str) : Option ℚ :=
  let (sgn, t₁) : Int × Str :=
    match t with
    | '+' :: r => (1, r)
    | '-' :: r => (-1, r)
    | r => (1, r)
  let ip := t₁.takeWhile Char.isDigit
  let r₁ := t₁.dropWhile Char.isDigit
  let (fp, r₂) :=
    match r₁ with
    | '.' :: r => (r.takeWhile Char.isDigit, r.dropWhile Char.isDigit)
    | _ => (([] : Str), r₁)
  if ip = [] ∧ fp = [] then none
  else
    let num : Int := sgn * (digitsToNat ip * 10 ^ fp.length + digitsToNat fp : Nat)
    let den : Nat := 10 ^ fp.length
    let withExp : Int → ℚ := fun e =>
      if 0 ≤ e then mkRat (num * 10 ^ e.toNat) den
      else mkRat num (den * 10 ^ (-e).toNat)
    match r₂ with
    | [] => some (mkRat num den)
    | 'e' :: r => (parseExponent r).map withExp
    | 'E' :: r => (parseExponent r).map withExp
    | _ => none

/-- JS `Number(value)` on a string: `none` plays the role of `NaN`.
The empty (or all-whitespace) string converts to `0`. -/
def jsNumber (s : Str) : Option ℚ :=
  let t := trimChars s
  if t = [] then some 0 else jsFiniteDecimal t

/-- A calendar date as produced by `new Date(value)` on a date-only
ISO string (the only form reaching that constructor here). -/
structure DateVal where
  year : Nat
  month : Nat
  day : Nat
deriving Repr, DecidableEq

/-- Days in a month of the proleptic Gregorian calendar. -/
def daysInMonth (y m : Nat) : Nat :=
  if m = 2 then
    if (y % 4 = 0 ∧ y % 100 ≠ 0) ∨ y % 400 = 0 then 29 else 28
  else if m = 4 ∨ m = 6 ∨ m = 9 ∨ m = 11 then 30
  else 31

/-- JS `Date.parse(value)` restricted to the date-only ISO form
`YYYY-MM-DD` (the fragment relevant to the filter grammar; forms with a
time component are outside the modelled fragment). `none` plays `NaN`. -/
def jsDateParse (s : Str) : Option DateVal :=
  match s with
  | [a, b, c, d, '-', e, f, '-', g, h] =>
    if a.isDigit ∧ b.isDigit ∧ c.isDigit ∧ d.isDigit ∧
       e.isDigit ∧ f.isDigit ∧ g.isDigit ∧ h.isDigit then
      let y := digitsToNat [a, b, c, d]
      let m := digitsToNat [e, f]
      let day := digitsToNat [g, h]
      if 1 ≤ m ∧ m ≤ 12 ∧ 1 ≤ day ∧ day ≤ daysInMonth y m then
        some ⟨y, m, day⟩
      else none
    else none
  | _ => none

/-- The regex test `value.match(/^\d4-\d2-\d2/)` (ISO date shape prefix). -/
def matchesIsoPrefix : Str → Bool
  | a :: b :: c :: d :: '-' :: e :: f :: '-' :: g :: h :: _ =>
    a.isDigit && b.isDigit && c.isDigit && d.isDigit &&
    e.isDigit && f.isDigit && g.isDigit && h.isDigit
  | _ => false

/-- A JSON-ish JavaScript value as it flows through the filter engine. -/
inductive JSValue where
  | str (s : Str)
  | num (q : ℚ)
  | bool (b : Bool)
  | date (d : DateVal)
  | null
  | undef
  | list (vs : List JSValue)
deriving Repr

/-- Structural equality of `JSValue`s (JS strict equality on the shapes
that occur in compiled predicates). -/
def jsEqVal : JSValue → JSValue → Bool
  | .str a, .str b => a = b
  | .num a, .num b => a = b
  | .bool a, .bool b => a = b
  | .date a, .date b => a = b
  | .null, .null => true
  | .undef, .undef => true
  | .list as, .list bs => jsEqList as bs
  | _, _ => false
where
  /-- Pointwise structural equality of value lists. -/
  jsEqList : List JSValue → List JSValue → Bool
  | [], [] => true
  | a :: as, b :: bs => jsEqVal a b && jsEqList as bs
  | _, _ => false

/-- Lookup in a JS object embedded as an association list
(JS object keys are unique; the first binding wins). -/
def jsGet (k : Str) : List (Str × JSValue) → Option JSValue
  | [] => none
  | (k', v) :: rest => if k' = k then some v else jsGet k rest

/-- The `parseValue` coercion of FilterService: numeric parse first
(guarded by a nonempty trim), then boolean literals case-insensitively,
then an ISO-date-shaped prefix parsed as a date, else the string itself. -/
def parseValue (value : Str) : JSValue :=
  match jsNumber value, trimChars value with
  | some n, _ :: _ => .num n
  | _, _ =>
    if toLowerStr value = S "true" then .bool true
    else if toLowerStr value = S "false" then .bool false
    else if matchesIsoPrefix value then
      match jsDateParse value with
      | some d => .date d
      | none => .str value
    else .str value

/-- The 2–3 character operator tokens of FilterService, tried first. -/
def twoThreeCharOps : List Str := [S "gte", S "lte", S "sw", S "ew", S "ne", S "lk"]

/-- The shorter operator tokens of FilterService, tried second. -/
def singleCharOps : List Str := [S "gt", S "lt", S "eq"]

/-- First operator token of `ops` that is a prefix of `s`, together with
the residual string after stripping it. -/
def findPrefixOp : List Str → Str → Option (Str × Str)
  | [], _ => none
  | op :: ops, s =>
    if op.isPrefixOf s then some (op, s.drop op.length) else findPrefixOp ops s

/-- A parsed filter condition: field name, operator token, coerced value. -/
structure FilterCondition where
  field : Str
  operator : Str
  value : JSValue
deriving Repr

/-- One throw site's `BadRequestException`, with its message payload. -/
inductive BadRequest where
  | invalidFilterFormat (fragment : Str)
  | unknownField (field : Str)
  | operatorNotSupported (operator : Str) (typeCategory : Str) (field : Str)
  | unknownFieldType (fieldType : Str) (field : Str)
  | stringOpNotSupported (opName : Str) (fieldType : Str)
  | unsupportedOperator (operator : Str)
  | valueNotArray
deriving Repr, DecidableEq

/-- FilterService.parseOperatorValue: operator/value disambiguation.
Exact literals first, then the bracketed array operators, then the longer
prefix operators, then the shorter ones, defaulting to equality. -/
def parseOperatorValue (operatorValue : Str) : Str × JSValue :=
  if operatorValue = S "true" then (S "true", .bool true)
  else if operatorValue = S "false" then (S "false", .bool false)
  else if operatorValue = S "null" then (S "null", .null)
  else if operatorValue = S "notnull" then (S "notnull", .null)
  else if (S "in[").isPrefixOf operatorValue && (S "]").isSuffixOf operatorValue then
    let arrayValue := (operatorValue.drop 3).dropLast
    let values := (splitOnChar ',' arrayValue).map trimChars
    (S "in", .list (values.map JSValue.str))
  else if (S "nin[").isPrefixOf operatorValue && (S "]").isSuffixOf operatorValue then
    let arrayValue := (operatorValue.drop 4).dropLast
    let values := (splitOnChar ',' arrayValue).map trimChars
    (S "nin", .list (values.map JSValue.str))
  else
    match findPrefixOp twoThreeCharOps operatorValue with
    | some (op, rest) => (op, parseValue rest)
    | none =>
      match findPrefixOp singleCharOps operatorValue with
      | some (op, rest) => (op, parseValue rest)
      | none => (S "eq", parseValue operatorValue)

/-- FilterService.parseFilter: split one condition on the first colon. -/
def parseFilter (filter : Str) : Except BadRequest FilterCondition :=
  match filter.findIdx? (fun c => c = ':') with
  | none => .error (.invalidFilterFormat filter)
  | some colonIndex =>
    let field := filter.take colonIndex
    let operatorValue := filter.drop (colonIndex + 1)
    if field = [] ∨ operatorValue = [] then .error (.invalidFilterFormat filter)
    else
      let (operator, value) := parseOperatorValue operatorValue
      .ok ⟨field, operator, value⟩

/-- FilterService.parseFilters: split the query on semicolons and parse
each trimmed fragment; the empty query yields no conditions. -/
def parseFilters (filterQuery : Str) : Except BadRequest (List FilterCondition) :=
  if filterQuery = [] then .ok []
  else (splitOnChar ';' filterQuery).mapM (fun f => parseFilter (trimChars f))

/-- A field definition as consumed by the filter/validation services.
Field types are the string values of the `FieldType` enum ("string",
"number", "boolean", "email", "date", "url"); keeping them as strings
mirrors the untyped `any[]` the services receive and lets a definition
carry an unrecognized type. The `pattern` regex constraint and the
`unique` flag are outside the modelled fragment (no claim exercises
them). -/
structure FieldDefinition where
  name : Str
  type : Str
  required : Bool := false
  minLength : Option Nat := none
  maxLength : Option Nat := none
  min : Option ℚ := none
  max : Option ℚ := none
  defaultValue : Option JSValue := none
deriving Repr

/-- FilterService.validateOperatorForFieldType's `stringOps` whitelist. -/
def stringOps : List Str :=
  [S "eq", S "ne", S "lk", S "sw", S "ew", S "in", S "nin", S "null", S "notnull"]

/-- FilterService.validateOperatorForFieldType's `numberOps` whitelist
(also used for date fields). -/
def numberOps : List Str :=
  [S "eq", S "ne", S "gt", S "gte", S "lt", S "lte", S "in", S "nin", S "null", S "notnull"]

/-- FilterService.validateOperatorForFieldType's `booleanOps` whitelist. -/
def booleanOps : List Str :=
  [S "eq", S "ne", S "true", S "false", S "null", S "notnull"]

/-- FilterService.validateOperatorForFieldType: the switch over the
field's declared type. The thrown message names the type CATEGORY
("string" also for email/url fields), which the error payload records. -/
def validateOperatorForFieldType (operator : Str) (fieldType : Str) (fieldName : Str) :
    Except BadRequest Unit :=
  if fieldType = S "string" ∨ fieldType = S "email" ∨ fieldType = S "url" then
    if operator ∈ stringOps then .ok ()
    else .error (.operatorNotSupported operator (S "string") fieldName)
  else if fieldType = S "number" then
    if operator ∈ numberOps then .ok ()
    else .error (.operatorNotSupported operator (S "number") fieldName)
  else if fieldType = S "boolean" then
    if operator ∈ booleanOps then .ok ()
    else .error (.operatorNotSupported operator (S "boolean") fieldName)
  else if fieldType = S "date" then
    if operator ∈ numberOps then .ok ()
    else .error (.operatorNotSupported operator (S "date") fieldName)
  else .error (.unknownFieldType fieldType fieldName)

/-- FilterService.validateFilters: for each condition in order, resolve
the field definition (first match by name) and check the operator, the
first violation aborting the loop. -/
def validateFilters (conditions : List FilterCondition) (fieldDefinitions : List FieldDefinition) :
    Except BadRequest Unit :=
  match conditions with
  | [] => .ok ()
  | c :: cs =>
    match fieldDefinitions.find? (fun f => f.name = c.field) with
    | none => .error (.unknownField c.field)
    | some fieldDef =>
      match validateOperatorForFieldType c.operator fieldDef.type c.field with
      | .error e => .error e
      | .ok () => validateFilters cs fieldDefinitions

/-- The backend-neutral compiled predicate tree: the shapes of the Prisma
where-clause objects built by FilterService. `emptyPred` is the bare
object placed at the root for an empty condition list; `pathExists f` is
the bare path clause used by the null-check operators. -/
inductive Pred where
  | emptyPred
  | andP (ps : List Pred)
  | orP (ps : List Pred)
  | notP (p : Pred)
  | pathEquals (field : Str) (v : JSValue)
  | pathExists (field : Str)
  | strContains (field : Str) (v : JSValue)
  | strStartsWith (field : Str) (v : JSValue)
  | strEndsWith (field : Str) (v : JSValue)
  | gtP (field : Str) (v : JSValue)
  | gteP (field : Str) (v : JSValue)
  | ltP (field : Str) (v : JSValue)
  | lteP (field : Str) (v : JSValue)
deriving Repr

/-- FilterService.buildConditionClause: translate one validated condition
into a predicate, resolving the field's declared type (defaulting to
"string" when the definition is missing or its type is the empty string,
mirroring the `fieldDef?.type || FieldType.STRING` fallback). The
`valueNotArray` error models the JS TypeError raised when `value.map` is
applied to a non-array value for the set operators. -/
def buildConditionClause (condition : FilterCondition) (fieldDefinitions : List FieldDefinition) :
    Except BadRequest Pred :=
  let field := condition.field
  let value := condition.value
  let fieldDef := fieldDefinitions.find? (fun f => f.name = field)
  let fieldType :=
    match fieldDef with
    | some fd => if fd.type = [] then S "string" else fd.type
    | none => S "string"
  if condition.operator = S "eq" then .ok (.pathEquals field value)
  else if condition.operator = S "ne" then .ok (.notP (.pathEquals field value))
  else if condition.operator = S "lk" then
    if fieldType = S "string" then .ok (.strContains field value)
    else .error (.stringOpNotSupported (S "LIKE") fieldType)
  else if condition.operator = S "sw" then
    if fieldType = S "string" then .ok (.strStartsWith field value)
    else .error (.stringOpNotSupported (S "STARTS_WITH") fieldType)
  else if condition.operator = S "ew" then
    if fieldType = S "string" then .ok (.strEndsWith field value)
    else .error (.stringOpNotSupported (S "ENDS_WITH") fieldType)
  else if condition.operator = S "gt" then .ok (.gtP field value)
  else if condition.operator = S "gte" then .ok (.gteP field value)
  else if condition.operator = S "lt" then .ok (.ltP field value)
  else if condition.operator = S "lte" then .ok (.lteP field value)
  else if condition.operator = S "in" then
    match value with
    | .list vs => .ok (.orP (vs.map (fun v => .pathEquals field v)))
    | _ => .error .valueNotArray
  else if condition.operator = S "nin" then
    match value with
    | .list vs => .ok (.andP (vs.map (fun v => .notP (.pathEquals field v))))
    | _ => .error .valueNotArray
  else if condition.operator = S "true" then .ok (.pathEquals field (.bool true))
  else if condition.operator = S "false" then .ok (.pathEquals field (.bool false))
  else if condition.operator = S "null" then
    .ok (.orP [.pathEquals field .null, .pathEquals field .undef, .notP (.pathExists field)])
  else if condition.operator = S "notnull" then
    .ok (.andP [.pathExists field, .notP (.pathEquals field .null),
                .notP (.pathEquals field .undef)])
  else .error (.unsupportedOperator condition.operator)

/-- FilterService.buildWhereClause: the empty condition list compiles to
the bare (always-true) clause, otherwise to the AND of the per-condition
clauses, the first compilation error aborting the whole build. -/
def buildWhereClause (conditions : List FilterCondition) (fieldDefinitions : List FieldDefinition) :
    Except BadRequest Pred :=
  if conditions.length = 0 then .ok .emptyPred
  else do
    let clauses ← conditions.mapM (fun c => buildConditionClause c fieldDefinitions)
    return .andP clauses

/-- Case-insensitive containment of `t` in `s` (the `mode: insensitive`
string clauses). -/
def containsCI (s t : Str) : Bool :=
  decide (toLowerStr t <:+: toLowerStr s)

/-- Numeric/date comparison of the stored field value against the
condition value, used by the four ordering clauses. -/
def evalCmp (r : ℚ → ℚ → Bool) (f : Str) (v : JSValue) (d : List (Str × JSValue)) : Bool :=
  match jsGet f d, v with
  | some (.num a), .num b => r a b
  | _, _ => false

mutual
/-- Modelled from the spec (§4.3): the record store's evaluation of the
backend-neutral predicate tree over one record's `data` object. The
store itself (Prisma) is outside the sources, so this interpretation
follows the spec's reading: path clauses address the field inside the
JSON document, `isNull`-style clauses treat an absent key as null-like,
string clauses are case-insensitive, and comparisons apply to numbers
and dates. -/
def evalPred : Pred → List (Str × JSValue) → Bool
  | .emptyPred, _ => true
  | .andP ps, d => evalPredAll ps d
  | .orP ps, d => evalPredAny ps d
  | .notP p, d => !evalPred p d
  | .pathEquals f v, d =>
    match jsGet f d with
    | some x => jsEqVal x v
    | none => false
  | .pathExists f, d => (jsGet f d).isSome
  | .strContains f v, d =>
    match jsGet f d, v with
    | some (.str s), .str t => containsCI s t
    | _, _ => false
  | .strStartsWith f v, d =>
    match jsGet f d, v with
    | some (.str s), .str t => (toLowerStr t).isPrefixOf (toLowerStr s)
    | _, _ => false
  | .strEndsWith f v, d =>
    match jsGet f d, v with
    | some (.str s), .str t => (toLowerStr t).isSuffixOf (toLowerStr s)
    | _, _ => false
  | .gtP f v, d => evalCmp (fun a b => b < a) f v d
  | .gteP f v, d => evalCmp (fun a b => b ≤ a) f v d
  | .ltP f v, d => evalCmp (fun a b => a < b) f v d
  | .lteP f v, d => evalCmp (fun a b => a ≤ b) f v d

/-- Conjunction of a clause list (the `AND` node). -/
def evalPredAll : List Pred → List (Str × JSValue) → Bool
  | [], _ => true
  | p :: ps, d => evalPred p d && evalPredAll ps d

/-- Disjunction of a clause list (the `OR` node). -/
def evalPredAny : List Pred → List (Str × JSValue) → Bool
  | [], _ => false
  | p :: ps, d => evalPred p d || evalPredAny ps d
end

/-- The parsed pagination options (QueryService). -/
structure PaginationOptions where
  page : Int
  limit : Int
  offset : Int
deriving Repr, DecidableEq

/-- JS `x || d` on an optional number: absent or zero falls back to the
default (`0` is falsy). -/
def jsOrNum (x : Option Int) (d : Int) : Int :=
  match x with
  | none => d
  | some v => if v = 0 then d else v

/-- QueryService.parsePagination: page floored at 1 after the falsy
default of 1; limit floored at 1 and capped at 100 after the falsy
default of 50; offset computed from the results. -/
def parsePagination (page limit : Option Int) : PaginationOptions :=
  let pageNum := max 1 (jsOrNum page 1)
  let limitNum := min (max 1 (jsOrNum limit 50)) 100
  { page := pageNum, limit := limitNum, offset := (pageNum - 1) * limitNum }

/-- The pagination metadata object: optional components model which keys
the returned JS object carries in each of the two shapes. -/
structure PaginationMeta where
  total : Int
  hasMore : Option Bool
  page : Option Int
  limit : Option Int
  totalPages : Option Int
  hasNextPage : Option Bool
  hasPrevPage : Option Bool
deriving Repr, DecidableEq

/-- JS `Math.ceil(a / b)` for a nonnegative numerator and positive
denominator (the only regime reachable from parsed pagination options;
JS would produce NaN or Infinity outside it). -/
def ceilDiv (a b : Int) : Int := (a + b - 1) / b

/-- QueryService.buildPaginationMeta: without pagination only the total
and a `hasMore: false` flag; with pagination the page/limit echo, the
ceiling page count, and the two navigation flags. -/
def buildPaginationMeta (total : Int) (pagination : Option PaginationOptions) :
    PaginationMeta :=
  match pagination with
  | none =>
    { total := total, hasMore := some false, page := none, limit := none,
      totalPages := none, hasNextPage := none, hasPrevPage := none }
  | some p =>
    let totalPages := ceilDiv total p.limit
    { total := total, hasMore := none, page := some p.page, limit := some p.limit,
      totalPages := some totalPages,
      hasNextPage := some (decide (p.page < totalPages)),
      hasPrevPage := some (decide (1 < p.page)) }

/-- A stored dynamic-entity record (the Prisma `DynamicEntity` row shape). -/
structure EntityRecord where
  id : Str
  entityType : Str
  organizationId : Str
  data : List (Str × JSValue)
  createdAt : Int
  updatedAt : Int
deriving Repr

/-- The per-record projection loop body of
QueryService.filterSelectedFields: copy, in selection order, each
selected key the record's data actually has. -/
def filterEntityData (selectFields : List Str) (data : List (Str × JSValue)) :
    List (Str × JSValue) :=
  selectFields.filterMap (fun f => (jsGet f data).map (fun v => (f, v)))

/-- QueryService.filterSelectedFields: no selection (absent or empty)
returns the records untouched; otherwise each record keeps every field
except `data`, which is rebuilt from the selected keys. -/
def filterSelectedFields (entities : List EntityRecord) (selectFields : Option (List Str)) :
    List EntityRecord :=
  match selectFields with
  | none => entities
  | some sel =>
    if sel.length = 0 then entities
    else entities.map (fun e => { e with data := filterEntityData sel e.data })

/-- The base value check generated for one field by
ValidationService.generateSchema's switch: the zod type plus the
constraints actually attached. -/
inductive ZodBase where
  | zstring (minL maxL : Option Nat)
  | znumber (lo hi : Option ℚ)
  | zboolean
  | zemail
  | zdate
  | zurl
  | zany
deriving Repr, DecidableEq

/-- One field's generated schema: the base check, whether the field was
wrapped in `optional()` (required = false), and the wrapped default. -/
structure FieldSchema where
  base : ZodBase
  optional : Bool
  dflt : Option JSValue
deriving Repr

/-- The generated object schema: one field schema per field definition,
in definition order. -/
abbrev GeneratedSchema := List (Str × FieldSchema)

/-- Modelled from the spec (§4.6): zod's `z.string().email()` format
test — the full zod email regex is not reproduced; a string with one
`@` separating nonempty halves stands in for it (no claim exercises the
format details). -/
def emailFormat (s : Str) : Bool :=
  match splitOnChar '@' s with
  | [l, d] => l ≠ [] && d ≠ []
  | _ => false

/-- Modelled from the spec (§4.6): zod's `z.string().url()` format test
(scheme-prefixed absolute URL; details beyond the prefix not modelled). -/
def urlFormat (s : Str) : Bool :=
  (S "http://").isPrefixOf s || (S "https://").isPrefixOf s

/-- Modelled from the spec (§4.6): zod's `z.string().datetime()` format
test, restricted to the UTC `YYYY-MM-DDTHH:MM:SSZ` shape. -/
def datetimeFormat (s : Str) : Bool :=
  (jsDateParse (s.take 10)).isSome &&
    match s.drop 10 with
    | 'T' :: rest =>
      rest ≠ [] && rest.getLast? = some 'Z' &&
        rest.dropLast.all (fun c => c.isDigit || c = ':' || c = '.')
    | _ => false

/-- ValidationService.generateSchema, per field: the switch over the
declared type, the `if (field.minLength)` / `if (field.maxLength)`
guards (falsy zero adds no constraint), the `!== undefined` guards for
numeric bounds, then the `optional()` and `.default(...)` wrappers. -/
def generateFieldSchema (f : FieldDefinition) : FieldSchema :=
  let base : ZodBase :=
    if f.type = S "string" then
      .zstring (match f.minLength with | some 0 => none | x => x)
               (match f.maxLength with | some 0 => none | x => x)
    else if f.type = S "number" then .znumber f.min f.max
    else if f.type = S "boolean" then .zboolean
    else if f.type = S "email" then .zemail
    else if f.type = S "date" then .zdate
    else if f.type = S "url" then .zurl
    else .zany
  { base := base, optional := !f.required, dflt := f.defaultValue }

/-- ValidationService.generateSchema: the `z.object` shape built from
the field list. -/
def generateSchema (fields : List FieldDefinition) : GeneratedSchema :=
  fields.map (fun f => (f.name, generateFieldSchema f))

/-- Evaluation of a base check against a present value. -/
def checkBase : ZodBase → JSValue → Bool
  | .zstring minL maxL, .str s =>
    (match minL with | some m => decide (m ≤ s.length) | none => true) &&
    (match maxL with | some m => decide (s.length ≤ m) | none => true)
  | .zstring _ _, _ => false
  | .znumber lo hi, .num q =>
    (match lo with | some m => decide (m ≤ q) | none => true) &&
    (match hi with | some m => decide (q ≤ m) | none => true)
  | .znumber _ _, _ => false
  | .zboolean, .bool _ => true
  | .zboolean, _ => false
  | .zemail, .str s => emailFormat s
  | .zemail, _ => false
  | .zdate, .str s => datetimeFormat s
  | .zdate, .date _ => true
  | .zdate, _ => false
  | .zurl, .str s => urlFormat s
  | .zurl, _ => false
  | .zany, _ => true

/-- The kind of a per-field zod issue. -/
inductive IssueKind where
  | missing
  | invalidValue
deriving Repr, DecidableEq

/-- One entry of the aggregated `ValidationFailed` error: the offending
field and what went wrong there. -/
structure Issue where
  field : Str
  kind : IssueKind
deriving Repr, DecidableEq

/-- Parsing one field of the payload in full mode: the wrapper order is
`ZodDefault(ZodOptional?(base))` as built by generateSchema, so an
absent value first takes the default (which is itself checked), then
falls back to the optional wrapper, and only then is reported missing.
The result is the key/value pair to place in the output, if any. -/
def runField (fs : FieldSchema) (v : Option JSValue) : Except IssueKind (Option JSValue) :=
  match v with
  | none =>
    match fs.dflt with
    | some d => if checkBase fs.base d then .ok (some d) else .error .invalidValue
    | none => if fs.optional then .ok none else .error .missing
  | some x => if checkBase fs.base x then .ok (some x) else .error .invalidValue

/-- Parsing one field in partial mode: `schema.partial()` wraps every
field in an outermost `ZodOptional`, so an absent value succeeds
immediately (the default is not consulted) and a present value runs the
inner chain. -/
def runFieldPartialMode (fs : FieldSchema) (v : Option JSValue) :
    Except IssueKind (Option JSValue) :=
  match v with
  | none => .ok none
  | some x => if checkBase fs.base x then .ok (some x) else .error .invalidValue

/-- Per-field outcomes of parsing the payload against the shape. -/
def fieldOutcomes (shape : GeneratedSchema) (data : List (Str × JSValue))
    (isPartialCall : Bool) : List (Str × Except IssueKind (Option JSValue)) :=
  shape.map (fun nf =>
    (nf.1, (if isPartialCall then runFieldPartialMode else runField) nf.2 (jsGet nf.1 data)))

/-- The aggregated issue list of a run (zod collects every issue). -/
def collectIssues (results : List (Str × Except IssueKind (Option JSValue))) : List Issue :=
  results.filterMap (fun nr =>
    match nr.2 with
    | .error k => some ⟨nr.1, k⟩
    | .ok _ => none)

/-- The assembled output object of a fully successful run. -/
def collectOutput (results : List (Str × Except IssueKind (Option JSValue))) :
    List (Str × JSValue) :=
  results.filterMap (fun nr =>
    match nr.2 with
    | .ok (some v) => some (nr.1, v)
    | _ => none)

/-- The object parse shared by both modes: run every field of the shape
against the payload (unknown payload keys are stripped), aggregate every
issue, and only if there are none assemble the output object. -/
def parseShape (shape : GeneratedSchema) (data : List (Str × JSValue))
    (isPartialCall : Bool) : Except (List Issue) (List (Str × JSValue)) :=
  let results := fieldOutcomes shape data isPartialCall
  let issues := collectIssues results
  if issues.length = 0 then .ok (collectOutput results)
  else .error issues

/-- ValidationService.validateData: `schema.parse(data)` in full mode. -/
def validateData (schema : GeneratedSchema) (data : List (Str × JSValue)) :
    Except (List Issue) (List (Str × JSValue)) :=
  parseShape schema data false

/-- ValidationService.validatePartialData: `schema.partial().parse(data)`
(object schemas always support `partial`, so the fallback branch of the
source is unreachable here). -/
def validatePartialData (schema : GeneratedSchema) (data : List (Str × JSValue)) :
    Except (List Issue) (List (Str × JSValue)) :=
  parseShape schema data true

/-- Truth of an `Except` succeeding. -/
def exceptOk {ε α : Type} : Except ε α → Bool
  | .ok _ => true
  | .error _ => false

/-- The issue list of a failed validation (empty on success). -/
def exceptIssues {α : Type} : Except (List Issue) α → List Issue
  | .error l => l
  | .ok _ => []

/-! ### Claim-side validation table (for the C5 refinement) -/

/-- The error taxonomy exactly as the claim states it. -/
inductive SpecError where
  | UnknownField (field : Str)
  | IncompatibleOperator (field : Str) (operator : Str) (fieldType : Str)
  | InvalidSchema (field : Str) (fieldType : Str)
deriving Repr, DecidableEq

/-- The operator/type compatibility table, transcribed from the claim's
words: string/email/url allow eq,ne,lk,sw,ew,in,nin,null,notnull; number
and date allow eq,ne,lt,lte,gt,gte,in,nin,null,notnull; boolean allows
eq,ne,true,false,null,notnull; anything else is an invalid schema. -/
def specAllowedOps (fieldType : Str) : Option (List Str) :=
  if fieldType = S "string" ∨ fieldType = S "email" ∨ fieldType = S "url" then
    some [S "eq", S "ne", S "lk", S "sw", S "ew", S "in", S "nin", S "null", S "notnull"]
  else if fieldType = S "number" ∨ fieldType = S "date" then
    some [S "eq", S "ne", S "lt", S "lte", S "gt", S "gte", S "in", S "nin", S "null", S "notnull"]
  else if fieldType = S "boolean" then
    some [S "eq", S "ne", S "true", S "false", S "null", S "notnull"]
  else none

/-- One condition's check against the claim's table. -/
def specCheckOp (operator fieldType fieldName : Str) : Option SpecError :=
  match specAllowedOps fieldType with
  | none => some (.InvalidSchema fieldName fieldType)
  | some ops =>
    if operator ∈ ops then none
    else some (.IncompatibleOperator fieldName operator fieldType)

/-- The claim's description of validation: scan the conditions in order;
the first condition whose field is unknown reports UnknownField
regardless of operator, otherwise an unrecognized declared type reports
InvalidSchema, otherwise an operator outside the type's allowed set
reports IncompatibleOperator; a clean scan reports nothing. -/
def validateFiltersSpec (conditions : List FilterCondition)
    (fieldDefinitions : List FieldDefinition) : Option SpecError :=
  match conditions with
  | [] => none
  | c :: cs =>
    match fieldDefinitions.find? (fun f => f.name = c.field) with
    | none => some (.UnknownField c.field)
    | some fd =>
      match specCheckOp c.operator fd.type c.field with
      | some e => some e
      | none => validateFiltersSpec cs fieldDefinitions

/-- Agreement of one source-side error with one claim-side error: the
kinds correspond and the field/operator payloads coincide (the source
message records the type CATEGORY rather than the declared type, so the
type payloads are not compared). -/
def errAgrees : BadRequest → SpecError → Prop
  | .unknownField f, .UnknownField f' => f = f'
  | .operatorNotSupported op _ f, .IncompatibleOperator f' op' _ => f = f' ∧ op = op'
  | .unknownFieldType t f, .InvalidSchema f' t' => f = f' ∧ t = t'
  | _, _ => False

/-- Agreement of the two validators' overall outcomes. -/
def resultsAgree : Except BadRequest Unit → Option SpecError → Prop
  | .ok (), none => True
  | .error e, some s => errAgrees e s
  | _, _ => False

/-! ### Theorems -/

/-- C1: For every condition list that passes filter validation against a
field-definition list, compilation succeeds and returns a predicate tree;
in particular the operators lk, sw, and ew on a field whose declared type
is email or url (which the compatibility table allows) compile to
contains/startsWith/endsWith sub-predicates rather than raising an error.
The code violates this: validateFilters whitelists lk/sw/ew for email and
url fields, but buildConditionClause accepts them only on the literal
"string" type and throws for email/url, so the very condition the
validator just admitted fails to compile. The theorem evaluates both
stages at the failing input. -/
theorem validated_like_on_email_fails_to_compile :
    validateFilters [⟨S "contact", S "lk", .str (S "x")⟩]
        [{ name := S "contact", type := S "email" }] = .ok () ∧
    buildWhereClause [⟨S "contact", S "lk", .str (S "x")⟩]
        [{ name := S "contact", type := S "email" }] =
      .error (.stringOpNotSupported (S "LIKE") (S "email")) := by
  exact ⟨rfl, rfl⟩

/-- C2 counterexample: the claim says a limit of 0 is clamped up to 1,
but `limit || 50` treats 0 as absent, so a limit of 0 yields the default
50, not 1. -/
theorem parsePagination_limit_zero_counterexample :
    parsePagination none (some 0) = { page := 1, limit := 50, offset := 0 } ∧
    (parsePagination none (some 0)).limit ≠ 1 := by
  exact ⟨rfl, by decide⟩

/-- C2 (amended): page defaults to 1 with floor 1; limit defaults to 50,
is floored at 1 and capped at 100 (limit 500 becomes 100, negative
limits become 1), except that a limit of exactly 0 is treated as absent
and falls back to the default 50; offset equals (page-1)*limit. -/
theorem parsePagination_clamps :
    (parsePagination none none = { page := 1, limit := 50, offset := 0 }) ∧
    (∀ p l, 1 ≤ (parsePagination p l).page ∧ 1 ≤ (parsePagination p l).limit ∧
      (parsePagination p l).limit ≤ 100) ∧
    (∀ p, (parsePagination p (some 500)).limit = 100) ∧
    (∀ p l, l < 0 → (parsePagination p (some l)).limit = 1) ∧
    (∀ p, (parsePagination p (some 0)).limit = 50) ∧
    (∀ p lv, 1 ≤ lv → lv ≤ 100 → (parsePagination p (some lv)).limit = lv) ∧
    (∀ pv l, pv ≤ 0 → (parsePagination (some pv) l).page = 1) ∧
    (∀ pv l, 1 ≤ pv → (parsePagination (some pv) l).page = pv) ∧
    (∀ p l, (parsePagination p l).offset =
      ((parsePagination p l).page - 1) * (parsePagination p l).limit) := by
  refine ⟨rfl, ?_, ?_, ?_, ?_, ?_, ?_, ?_, ?_⟩ <;>
    intros <;>
    simp_all [parsePagination, jsOrNum] <;>
    (try split) <;>
    omega

/-- Witness for C2's amended theorem at concrete inputs. -/
theorem parsePagination_clamps_witness :
    (parsePagination (some 3) (some (-7))).limit = 1 ∧
    (parsePagination (some 3) (some 80)).limit = 80 := by
  exact ⟨parsePagination_clamps.2.2.2.1 (some 3) (-7) (by decide),
         parsePagination_clamps.2.2.2.2.2.1 (some 3) 80 (by decide) (by decide)⟩

/-- C3 counterexample: the claim says that whenever total is 0 both
navigation flags are false for every page and limit, but hasPrevPage is
computed as page > 1 with no dependence on total: at total 0, page 2,
limit 10 it is true. -/
theorem buildPaginationMeta_total_zero_counterexample :
    (buildPaginationMeta 0 (some { page := 2, limit := 10, offset := 10 })).hasPrevPage =
      some true ∧
    (buildPaginationMeta 0 (some { page := 2, limit := 10, offset := 10 })).hasPrevPage ≠
      some false := by
  exact ⟨rfl, by decide⟩

/-- C3 (amended): with no pagination the meta is the total plus
hasMore false; with pagination it echoes page and limit, totalPages is
the ceiling of total/limit (characterized below for nonnegative totals
and positive limits), hasNextPage is page < totalPages and hasPrevPage
is page > 1; and whenever total is 0 (with positive limit), totalPages
is 0 and hasNextPage is false for every page at least 1, while
hasPrevPage remains page > 1 regardless of total. -/
theorem buildPaginationMeta_shape :
    (∀ t, buildPaginationMeta t none =
      { total := t, hasMore := some false, page := none, limit := none,
        totalPages := none, hasNextPage := none, hasPrevPage := none }) ∧
    (∀ t p, buildPaginationMeta t (some p) =
      { total := t, hasMore := none, page := some p.page, limit := some p.limit,
        totalPages := some (ceilDiv t p.limit),
        hasNextPage := some (decide (p.page < ceilDiv t p.limit)),
        hasPrevPage := some (decide (1 < p.page)) }) ∧
    (∀ t l, 0 ≤ t → 0 < l →
      t ≤ ceilDiv t l * l ∧ (ceilDiv t l - 1) * l < t) ∧
    (∀ p : PaginationOptions, 0 < p.limit →
      (buildPaginationMeta 0 (some p)).totalPages = some 0 ∧
      (1 ≤ p.page → (buildPaginationMeta 0 (some p)).hasNextPage = some false) ∧
      (buildPaginationMeta 0 (some p)).hasPrevPage = some (decide (1 < p.page))) := by
  refine ⟨fun t => rfl, fun t p => rfl, ?_, ?_⟩
  · intro t l ht hl
    have hc := Int.ediv_add_emod (t + l - 1) l
    have hr0 : 0 ≤ (t + l - 1) % l := Int.emod_nonneg _ (by omega)
    have hrl : (t + l - 1) % l < l := Int.emod_lt_of_pos _ hl
    have hcomm : ceilDiv t l * l = l * ((t + l - 1) / l) := by
      unfold ceilDiv; ring
    have hexp : (ceilDiv t l - 1) * l = ceilDiv t l * l - l := by ring
    constructor
    · rw [hcomm]; omega
    · rw [hexp, hcomm]; omega
  · intro p hl
    have h0 : ceilDiv 0 p.limit = 0 := by
      unfold ceilDiv
      rw [show (0 : Int) + p.limit - 1 = p.limit - 1 by ring]
      exact Int.ediv_eq_zero_of_lt (by omega) (by omega)
    refine ⟨?_, ?_, rfl⟩
    · simp [buildPaginationMeta, h0]
    · intro hp
      simp [buildPaginationMeta, h0]
      omega

/-- Witness for C3's amended theorem at concrete inputs. -/
theorem buildPaginationMeta_shape_witness :
    (0 : Int) ≤ 25 ∧ (0 : Int) < 10 ∧
    (25 : Int) ≤ ceilDiv 25 10 * 10 ∧ (ceilDiv 25 10 - 1) * 10 < 25 := by
  refine ⟨by decide, by decide, ?_⟩
  exact buildPaginationMeta_shape.2.2.1 25 10 (by decide) (by decide)


/-- Membership in the claim's number/date row coincides with membership
in the source's `numberOps` list (same set, different order). -/
theorem mem_spec_number_iff (op : Str) :
    op ∈ [S "eq", S "ne", S "lt", S "lte", S "gt", S "gte", S "in", S "nin",
      S "null", S "notnull"] ↔ op ∈ numberOps := by
  simp only [numberOps, List.mem_cons, List.not_mem_nil, or_false]
  tauto

/-- Per-condition agreement of the source's operator check with the
claim's table. -/
theorem validateOp_agrees (op t f : Str) :
    resultsAgree (validateOperatorForFieldType op t f) (specCheckOp op t f) := by
  by_cases h1 : t = S "string" ∨ t = S "email" ∨ t = S "url"
  · have hstep : validateOperatorForFieldType op t f =
        if op ∈ stringOps then .ok () else .error (.operatorNotSupported op (S "string") f) := by
      unfold validateOperatorForFieldType
      rw [if_pos h1]
    have hspec : specCheckOp op t f =
        if op ∈ stringOps then none else some (.IncompatibleOperator f op t) := by
      unfold specCheckOp specAllowedOps
      rw [if_pos h1]
      rfl
    rw [hstep, hspec]
    by_cases hm : op ∈ stringOps
    · simp [hm, resultsAgree]
    · simp [hm, resultsAgree, errAgrees]
  · by_cases h2 : t = S "number"
    · have hstep : validateOperatorForFieldType op t f =
          if op ∈ numberOps then .ok () else .error (.operatorNotSupported op (S "number") f) := by
        unfold validateOperatorForFieldType
        rw [if_neg h1, if_pos h2]
      have hspec : specCheckOp op t f =
          if op ∈ [S "eq", S "ne", S "lt", S "lte", S "gt", S "gte", S "in", S "nin",
            S "null", S "notnull"] then none
          else some (.IncompatibleOperator f op t) := by
        unfold specCheckOp specAllowedOps
        rw [if_neg h1, if_pos (Or.inl h2)]
      rw [hstep, hspec]
      by_cases hm : op ∈ numberOps
      · rw [if_pos hm, if_pos ((mem_spec_number_iff op).mpr hm)]
        exact trivial
      · rw [if_neg hm, if_neg (fun h => hm ((mem_spec_number_iff op).mp h))]
        exact ⟨rfl, rfl⟩
    · by_cases h3 : t = S "boolean"
      · have hstep : validateOperatorForFieldType op t f =
            if op ∈ booleanOps then .ok ()
            else .error (.operatorNotSupported op (S "boolean") f) := by
          unfold validateOperatorForFieldType
          rw [if_neg h1, if_neg h2, if_pos h3]
        have hnd : ¬(t = S "number" ∨ t = S "date") := by
          subst h3
          rintro (h | h) <;> simp [S] at h
        have hspec : specCheckOp op t f =
            if op ∈ booleanOps then none else some (.IncompatibleOperator f op t) := by
          unfold specCheckOp specAllowedOps
          rw [if_neg h1, if_neg hnd, if_pos h3]
          rfl
        rw [hstep, hspec]
        by_cases hm : op ∈ booleanOps
        · simp [hm, resultsAgree]
        · simp [hm, resultsAgree, errAgrees]
      · by_cases h4 : t = S "date"
        · have hstep : validateOperatorForFieldType op t f =
              if op ∈ numberOps then .ok ()
              else .error (.operatorNotSupported op (S "date") f) := by
            unfold validateOperatorForFieldType
            rw [if_neg h1, if_neg h2, if_neg h3, if_pos h4]
          have hspec : specCheckOp op t f =
              if op ∈ [S "eq", S "ne", S "lt", S "lte", S "gt", S "gte", S "in", S "nin",
                S "null", S "notnull"] then none
              else some (.IncompatibleOperator f op t) := by
            unfold specCheckOp specAllowedOps
            rw [if_neg h1, if_pos (Or.inr h4)]
          rw [hstep, hspec]
          by_cases hm : op ∈ numberOps
          · rw [if_pos hm, if_pos ((mem_spec_number_iff op).mpr hm)]
            exact trivial
          · rw [if_neg hm, if_neg (fun h => hm ((mem_spec_number_iff op).mp h))]
            exact ⟨rfl, rfl⟩
        · have hnd : ¬(t = S "number" ∨ t = S "date") := by rintro (h | h) <;> contradiction
          have hstep : validateOperatorForFieldType op t f =
              .error (.unknownFieldType t f) := by
            unfold validateOperatorForFieldType
            rw [if_neg h1, if_neg h2, if_neg h3, if_neg h4]
          have hspec : specCheckOp op t f = some (.InvalidSchema f t) := by
            unfold specCheckOp specAllowedOps
            rw [if_neg h1, if_neg hnd, if_neg h3]
          rw [hstep, hspec]
          exact ⟨rfl, rfl⟩

/-- C5: Filter validation is fail-fast in condition order; the first
condition with an unknown field reports UnknownField regardless of its
operator, otherwise an unrecognized declared type reports InvalidSchema,
otherwise an operator outside the type's table row reports
IncompatibleOperator, and a clean list reports nothing — stated as
agreement, on every input, of the source validator with a validator
transcribed from the claim's table. -/
theorem validateFilters_refines_claim_table :
    ∀ (conditions : List FilterCondition) (fieldDefinitions : List FieldDefinition),
      resultsAgree (validateFilters conditions fieldDefinitions)
        (validateFiltersSpec conditions fieldDefinitions) := by
  intro conditions fieldDefinitions
  induction conditions with
  | nil => exact trivial
  | cons c cs ih =>
    show resultsAgree
      (match fieldDefinitions.find? (fun f => f.name = c.field) with
        | none => .error (.unknownField c.field)
        | some fieldDef =>
          match validateOperatorForFieldType c.operator fieldDef.type c.field with
          | .error e => .error e
          | .ok () => validateFilters cs fieldDefinitions)
      (match fieldDefinitions.find? (fun f => f.name = c.field) with
        | none => some (.UnknownField c.field)
        | some fd =>
          match specCheckOp c.operator fd.type c.field with
          | some e => some e
          | none => validateFiltersSpec cs fieldDefinitions)
    cases hf : fieldDefinitions.find? (fun f => f.name = c.field) with
    | none => exact rfl
    | some fd =>
      show resultsAgree
        (match validateOperatorForFieldType c.operator fd.type c.field with
          | .error e => .error e
          | .ok () => validateFilters cs fieldDefinitions)
        (match specCheckOp c.operator fd.type c.field with
          | some e => some e
          | none => validateFiltersSpec cs fieldDefinitions)
      have hstep := validateOp_agrees c.operator fd.type c.field
      cases hv : validateOperatorForFieldType c.operator fd.type c.field with
      | error e =>
        rw [hv] at hstep
        cases hsp : specCheckOp c.operator fd.type c.field with
        | none =>
          rw [hsp] at hstep
          exact absurd hstep (by simp [resultsAgree])
        | some s =>
          rw [hsp] at hstep
          exact hstep
      | ok u =>
        cases u
        rw [hv] at hstep
        cases hsp : specCheckOp c.operator fd.type c.field with
        | none => exact ih
        | some s =>
          rw [hsp] at hstep
          exact absurd hstep (by simp [resultsAgree])

/-- Recognition of any operator pattern by parseOperatorValue: the four
exact literals, a bracketed set operator, or a known operator prefix. -/
def someOpPattern (s : Str) : Bool :=
  s = S "true" || s = S "false" || s = S "null" || s = S "notnull" ||
  ((S "in[").isPrefixOf s && (S "]").isSuffixOf s) ||
  ((S "nin[").isPrefixOf s && (S "]").isSuffixOf s) ||
  (findPrefixOp twoThreeCharOps s).isSome || (findPrefixOp singleCharOps s).isSome

/-- C4: Operator disambiguation follows the priority order: exact
literals true/false/null/notnull first; then in[...]/nin[...]; then the
prefixes gte, lte, sw, ew, ne, lk; then gt, lt, eq; and with no match
the operator defaults to eq with the whole residual string as value.
Consequently a value of the shape gte... never parses as gt, and
nin[...] never parses as ne. -/
theorem parseOperatorValue_priority :
    (parseOperatorValue (S "true") = (S "true", .bool true)) ∧
    (parseOperatorValue (S "false") = (S "false", .bool false)) ∧
    (parseOperatorValue (S "null") = (S "null", .null)) ∧
    (parseOperatorValue (S "notnull") = (S "notnull", .null)) ∧
    (∀ v : Str, (parseOperatorValue (S "gte" ++ v)).1 = S "gte" ∧
      (parseOperatorValue (S "gte" ++ v)).1 ≠ S "gt") ∧
    (∀ s : Str, (parseOperatorValue (S "nin[" ++ s ++ S "]")).1 = S "nin" ∧
      (parseOperatorValue (S "nin[" ++ s ++ S "]")).1 ≠ S "ne") ∧
    (∀ s : Str, someOpPattern s = false →
      parseOperatorValue s = (S "eq", parseValue s)) := by
  refine ⟨rfl, rfl, rfl, rfl, ?_, ?_, ?_⟩
  · intro v
    have h : parseOperatorValue (S "gte" ++ v) = (S "gte", parseValue v) := by
      simp [parseOperatorValue, S, findPrefixOp, twoThreeCharOps, List.isPrefixOf]
    rw [h]
    exact ⟨rfl, by simp [S]⟩
  · intro s
    have hsuf : [']'] <:+ ('n' :: 'i' :: 'n' :: '[' :: (s ++ [']'])) := by
      have h := List.suffix_append ('n' :: 'i' :: 'n' :: '[' :: s) [']']
      simpa using h
    have h : (parseOperatorValue (S "nin[" ++ s ++ S "]")).1 = S "nin" := by
      simp only [parseOperatorValue, S, List.isPrefixOf, List.append_assoc]
      simp only [List.cons_append, List.nil_append]
      rw [if_neg (by simp), if_neg (by simp), if_neg (by simp), if_neg (by simp),
        if_neg (by simp [List.isPrefixOf])]
      rw [if_pos (by simp [List.isPrefixOf, hsuf])]
    rw [h]
    exact ⟨rfl, by simp [S]⟩
  · intro s h
    simp only [someOpPattern, Bool.or_eq_false_iff, decide_eq_false_iff_not,
      Bool.and_eq_false_iff] at h
    obtain ⟨⟨⟨⟨⟨⟨⟨h1, h2⟩, h3⟩, h4⟩, h5⟩, h6⟩, h7⟩, h8⟩ := h
    have h7' : findPrefixOp twoThreeCharOps s = none := by
      cases hh : findPrefixOp twoThreeCharOps s
      · rfl
      · rw [hh] at h7; simp at h7
    have h8' : findPrefixOp singleCharOps s = none := by
      cases hh : findPrefixOp singleCharOps s
      · rfl
      · rw [hh] at h8; simp at h8
    rw [parseOperatorValue]
    rw [if_neg h1, if_neg h2, if_neg h3, if_neg h4]
    rw [if_neg (by rcases h5 with h | h <;> simp [h]),
        if_neg (by rcases h6 with h | h <;> simp [h])]
    rw [h7', h8']

/-- Witness for C4's default clause at a concrete operator-free input. -/
theorem parseOperatorValue_priority_witness :
    someOpPattern (S "hello") = false ∧
    parseOperatorValue (S "hello") = (S "eq", parseValue (S "hello")) :=
  ⟨by decide, parseOperatorValue_priority.2.2.2.2.2.2 (S "hello") (by decide)⟩

/-- C10: The bracket interior of an in[...] or nin[...] condition is only
comma-split and whitespace-trimmed; the generic value coercion is never
applied to the tokens, which therefore stay strings — while the same
numeral behind a prefix operator is coerced to a number. -/
theorem set_operator_tokens_stay_strings :
    (∀ s : Str, parseOperatorValue (S "in[" ++ s ++ S "]") =
      (S "in", .list (((splitOnChar ',' s).map trimChars).map JSValue.str))) ∧
    (∀ s : Str, parseOperatorValue (S "nin[" ++ s ++ S "]") =
      (S "nin", .list (((splitOnChar ',' s).map trimChars).map JSValue.str))) ∧
    parseFilter (S "price:in[1,2]") =
      .ok ⟨S "price", S "in", .list [.str (S "1"), .str (S "2")]⟩ ∧
    parseFilter (S "price:eq1") = .ok ⟨S "price", S "eq", .num 1⟩ := by
  refine ⟨?_, ?_, rfl, rfl⟩
  · intro s
    have hsuf : [']'] <:+ ('i' :: 'n' :: '[' :: (s ++ [']'])) := by
      have h := List.suffix_append ('i' :: 'n' :: '[' :: s) [']']
      simpa using h
    simp only [parseOperatorValue, S, List.append_assoc]
    simp only [List.cons_append, List.nil_append]
    rw [if_neg (by simp), if_neg (by simp), if_neg (by simp), if_neg (by simp)]
    rw [if_pos (by simp [List.isPrefixOf, hsuf])]
    simp [List.dropLast_concat, Function.comp]
  · intro s
    have hsuf : [']'] <:+ ('n' :: 'i' :: 'n' :: '[' :: (s ++ [']'])) := by
      have h := List.suffix_append ('n' :: 'i' :: 'n' :: '[' :: s) [']']
      simpa using h
    simp only [parseOperatorValue, S, List.append_assoc]
    simp only [List.cons_append, List.nil_append]
    rw [if_neg (by simp), if_neg (by simp), if_neg (by simp), if_neg (by simp),
      if_neg (by simp [List.isPrefixOf])]
    rw [if_pos (by simp [List.isPrefixOf, hsuf])]
    simp [List.dropLast_concat, Function.comp]

/-- C6: Value coercion of the residual string: a string accepted by the
numeric parse (even with leading whitespace) becomes a number; else the
literals true/false case-insensitively become booleans; else a string
with a YYYY-MM-DD shaped prefix that parses as a date becomes a date;
else it stays a string. A numeric-looking value filtered against a
string-typed field still becomes a number and validation does not reject
it: validation never reads the coerced value at all. -/
theorem parseValue_coercion_cascade :
    (∀ (v : Str) (n : ℚ), jsNumber v = some n → trimChars v ≠ [] →
      parseValue v = .num n) ∧
    (parseValue (S "  5") = .num 5) ∧
    (∀ v : Str, jsNumber v = none → toLowerStr v = S "true" → parseValue v = .bool true) ∧
    (∀ v : Str, jsNumber v = none → toLowerStr v = S "false" → parseValue v = .bool false) ∧
    (∀ (v : Str) (d : DateVal), jsNumber v = none → toLowerStr v ≠ S "true" →
      toLowerStr v ≠ S "false" → matchesIsoPrefix v = true → jsDateParse v = some d →
      parseValue v = .date d) ∧
    (∀ v : Str, jsNumber v = none → toLowerStr v ≠ S "true" → toLowerStr v ≠ S "false" →
      (matchesIsoPrefix v = false ∨ jsDateParse v = none) → parseValue v = .str v) ∧
    (validateFilters [⟨S "price", S "eq", .num 1⟩]
      [{ name := S "price", type := S "string" }] = .ok ()) ∧
    (∀ conds defs, validateFilters conds defs =
      validateFilters (conds.map (fun c => ⟨c.field, c.operator, JSValue.null⟩)) defs) := by
  refine ⟨?_, rfl, ?_, ?_, ?_, ?_, rfl, ?_⟩
  · intro v n h1 h2
    cases htrim : trimChars v with
    | nil => exact absurd htrim h2
    | cons c cs => simp [parseValue, h1, htrim]
  · intro v h1 h2
    simp [parseValue, h1, h2]
  · intro v h1 h2
    simp [parseValue, h1, h2, S]
  · intro v d h1 h2 h3 h4 h5
    simp [parseValue, h1, h2, h3, h4, h5]
  · intro v h1 h2 h3 h4
    rcases h4 with h | h
    · simp [parseValue, h1, h2, h3, h]
    · simp [parseValue, h1, h2, h3, h]
  · intro conds defs
    induction conds with
    | nil => rfl
    | cons c cs ih =>
      show ((match defs.find? (fun f => f.name = c.field) with
          | none => Except.error (BadRequest.unknownField c.field)
          | some fieldDef =>
            match validateOperatorForFieldType c.operator fieldDef.type c.field with
            | .error e => .error e
            | .ok () => validateFilters cs defs) : Except BadRequest Unit) =
        ((match defs.find? (fun f => f.name = c.field) with
          | none => Except.error (BadRequest.unknownField c.field)
          | some fieldDef =>
            match validateOperatorForFieldType c.operator fieldDef.type c.field with
            | .error e => .error e
            | .ok () => validateFilters
                (cs.map (fun c => FilterCondition.mk c.field c.operator JSValue.null))
                defs) : Except BadRequest Unit)
      cases hf : defs.find? (fun f => f.name = c.field) with
      | none => rfl
      | some fd =>
        show ((match validateOperatorForFieldType c.operator fd.type c.field with
            | .error e => .error e
            | .ok () => validateFilters cs defs) : Except BadRequest Unit) =
          ((match validateOperatorForFieldType c.operator fd.type c.field with
            | .error e => .error e
            | .ok () => validateFilters
                (cs.map (fun c => FilterCondition.mk c.field c.operator JSValue.null))
                defs) : Except BadRequest Unit)
        cases hv : validateOperatorForFieldType c.operator fd.type c.field with
        | error e => rfl
        | ok u => cases u; exact ih

/-- Witness for C6's cascade branches at concrete inputs. -/
theorem parseValue_coercion_cascade_witness :
    parseValue (S "7") = .num 7 ∧ parseValue (S "xyz") = .str (S "xyz") :=
  ⟨parseValue_coercion_cascade.1 (S "7") 7 (by decide) (by decide),
   parseValue_coercion_cascade.2.2.2.2.2.1 (S "xyz") (by decide) (by decide) (by decide)
     (Or.inl (by decide))⟩

/-- Disjunction of a mapped clause list evaluates as an any-scan of the
underlying list. -/
theorem evalPredAny_map {α : Type} (g : α → Pred) (vs : List α) (d : List (Str × JSValue)) :
    evalPredAny (vs.map g) d = vs.any (fun v => evalPred (g v) d) := by
  induction vs with
  | nil => simp [evalPredAny]
  | cons v rest ih => simp [evalPredAny, ih]

/-- C7: an in[...] condition compiles to an OR of per-value equals
predicates on the field's document path — and that OR matches a record
exactly when the field's stored value equals one of the listed values —
a nin[...] condition compiles to an AND of per-value negated equals
predicates, and an empty condition list compiles to the bare clause,
which matches every record. -/
theorem set_filters_compile_and_match :
    (∀ (field : Str) (vs : List JSValue) (defs : List FieldDefinition),
      buildConditionClause ⟨field, S "in", .list vs⟩ defs =
        .ok (.orP (vs.map (fun v => .pathEquals field v)))) ∧
    (∀ (field : Str) (vs : List JSValue) (defs : List FieldDefinition),
      buildConditionClause ⟨field, S "nin", .list vs⟩ defs =
        .ok (.andP (vs.map (fun v => .notP (.pathEquals field v))))) ∧
    (∀ (field : Str) (vs : List JSValue) (d : List (Str × JSValue)),
      evalPred (.orP (vs.map (fun v => .pathEquals field v))) d =
        vs.any (fun v =>
          match jsGet field d with
          | some x => jsEqVal x v
          | none => false)) ∧
    (∀ defs : List FieldDefinition, buildWhereClause [] defs = .ok .emptyPred) ∧
    (∀ d : List (Str × JSValue), evalPred .emptyPred d = true) := by
  refine ⟨?_, ?_, ?_, fun defs => rfl, fun d => by simp [evalPred]⟩
  · intro field vs defs
    simp [buildConditionClause, S]
  · intro field vs defs
    simp [buildConditionClause, S]
  · intro field vs d
    rw [show evalPred (.orP (vs.map (fun v => .pathEquals field v))) d =
      evalPredAny (vs.map (fun v => .pathEquals field v)) d from by simp [evalPred]]
    rw [evalPredAny_map]
    simp [evalPred]


/-- The outcome list in partial mode is a plain map with the partial
runner. -/
theorem fieldOutcomes_true (shape : GeneratedSchema) (data : List (Str × JSValue)) :
    fieldOutcomes shape data true =
      shape.map (fun nf => (nf.1, runFieldPartialMode nf.2 (jsGet nf.1 data))) := rfl

/-- The outcome list in full mode is a plain map with the full runner. -/
theorem fieldOutcomes_false (shape : GeneratedSchema) (data : List (Str × JSValue)) :
    fieldOutcomes shape data false =
      shape.map (fun nf => (nf.1, runField nf.2 (jsGet nf.1 data))) := rfl

/-- C8: In partial mode every field, required ones included, becomes
optional: success depends only on the checks of the keys actually
present, so a payload omitting a required field validates; in full mode
the same payload fails with an aggregated error naming the missing
required field; and a field with a defaultValue has the default
substituted into the output when the field is absent, independent of
whether the field is required or optional. -/
theorem validation_modes :
    (∀ (fields : List FieldDefinition) (data : List (Str × JSValue)),
      exceptOk (validatePartialData (generateSchema fields) data) =
        (generateSchema fields).all (fun nf =>
          match jsGet nf.1 data with
          | none => true
          | some v => checkBase nf.2.base v)) ∧
    (∀ (fields : List FieldDefinition) (data : List (Str × JSValue))
        (f : FieldDefinition), f ∈ fields → f.required = true →
      f.defaultValue = none → jsGet f.name data = none →
      Issue.mk f.name .missing ∈ exceptIssues (validateData (generateSchema fields) data)) ∧
    (∀ (fields : List FieldDefinition) (data : List (Str × JSValue))
        (f : FieldDefinition) (d : JSValue) (out : List (Str × JSValue)),
      f ∈ fields → f.defaultValue = some d → jsGet f.name data = none →
      validateData (generateSchema fields) data = .ok out → (f.name, d) ∈ out) := by
  refine ⟨?_, ?_, ?_⟩
  · intro fields data
    simp only [validatePartialData, parseShape]
    split
    · next hlen =>
      have hnil : collectIssues (fieldOutcomes (generateSchema fields) data true) = [] :=
        List.length_eq_zero.mp hlen
      simp only [collectIssues, List.filterMap_eq_nil_iff] at hnil
      show true = _
      symm
      rw [List.all_eq_true]
      intro nf hnf
      have hmem : (nf.1, runFieldPartialMode nf.2 (jsGet nf.1 data)) ∈
          fieldOutcomes (generateSchema fields) data true := by
        rw [fieldOutcomes_true]
        exact List.mem_map_of_mem _ hnf
      have hok := hnil _ hmem
      cases hget : jsGet nf.1 data with
      | none => simp
      | some v =>
        rw [hget] at hok
        by_cases hcb : checkBase nf.2.base v
        · simp [hget, hcb]
        · rw [show runFieldPartialMode nf.2 (some v) = .error .invalidValue from by
            simp [runFieldPartialMode, hcb]] at hok
          simp at hok
    · next hlen =>
      show false = _
      symm
      cases hiss : collectIssues (fieldOutcomes (generateSchema fields) data true) with
      | nil => rw [hiss] at hlen; simp at hlen
      | cons i rest =>
        have hi : i ∈ collectIssues (fieldOutcomes (generateSchema fields) data true) := by
          rw [hiss]; exact List.mem_cons_self i rest
        simp only [collectIssues, List.mem_filterMap] at hi
        obtain ⟨nr, hnr, hsome⟩ := hi
        simp only [fieldOutcomes, List.mem_map] at hnr
        obtain ⟨nf, hnf, hentry⟩ := hnr
        rw [List.all_eq_false]
        refine ⟨nf, hnf, ?_⟩
        cases hget : jsGet nf.1 data with
        | none =>
          rw [← hentry] at hsome
          simp [hget, runFieldPartialMode] at hsome
        | some v =>
          by_cases hcb : checkBase nf.2.base v
          · rw [← hentry] at hsome
            simp [hget, runFieldPartialMode, hcb] at hsome
          · simp [hget, hcb]
  · intro fields data f hf hreq hdflt hget
    have hdflt' : (generateFieldSchema f).dflt = none := by
      simp [generateFieldSchema, hdflt]
    have hopt : (generateFieldSchema f).optional = false := by
      simp [generateFieldSchema, hreq]
    have hrun : runField (generateFieldSchema f) (jsGet f.name data) = .error .missing := by
      simp [runField, hget, hdflt', hopt]
    have hentry : (f.name, runField (generateFieldSchema f) (jsGet f.name data)) ∈
        fieldOutcomes (generateSchema fields) data false := by
      have h1 : (f.name, generateFieldSchema f) ∈ generateSchema fields :=
        List.mem_map_of_mem _ hf
      rw [fieldOutcomes_false]
      exact List.mem_map_of_mem _ h1
    have hiss : Issue.mk f.name .missing ∈
        collectIssues (fieldOutcomes (generateSchema fields) data false) := by
      simp only [collectIssues, List.mem_filterMap]
      exact ⟨(f.name, runField (generateFieldSchema f) (jsGet f.name data)), hentry,
        by rw [hrun]⟩
    simp only [validateData, parseShape]
    split
    · next hlen =>
      rw [List.length_eq_zero.mp hlen] at hiss
      simp at hiss
    · next hlen =>
      simpa [exceptIssues] using hiss
  · intro fields data f d out hf hdflt hget hok
    have hdflt' : (generateFieldSchema f).dflt = some d := by
      simp [generateFieldSchema, hdflt]
    have hentry : (f.name, runField (generateFieldSchema f) (jsGet f.name data)) ∈
        fieldOutcomes (generateSchema fields) data false := by
      have h1 : (f.name, generateFieldSchema f) ∈ generateSchema fields :=
        List.mem_map_of_mem _ hf
      rw [fieldOutcomes_false]
      exact List.mem_map_of_mem _ h1
    simp only [validateData, parseShape] at hok
    by_cases hcb : checkBase (generateFieldSchema f).base d
    · have hrun : runField (generateFieldSchema f) (jsGet f.name data) = .ok (some d) := by
        simp [runField, hget, hdflt', hcb]
      have hout : (f.name, d) ∈
          collectOutput (fieldOutcomes (generateSchema fields) data false) := by
        simp only [collectOutput, List.mem_filterMap]
        exact ⟨(f.name, runField (generateFieldSchema f) (jsGet f.name data)), hentry,
          by rw [hrun]⟩
      split at hok
      · next hlen =>
        rw [Except.ok.injEq] at hok
        rw [← hok]
        exact hout
      · next hlen => exact absurd hok (by simp)
    · have hrun : runField (generateFieldSchema f) (jsGet f.name data) =
          .error .invalidValue := by
        simp [runField, hget, hdflt', hcb]
      have hiss : Issue.mk f.name .invalidValue ∈
          collectIssues (fieldOutcomes (generateSchema fields) data false) := by
        simp only [collectIssues, List.mem_filterMap]
        exact ⟨(f.name, runField (generateFieldSchema f) (jsGet f.name data)), hentry,
          by rw [hrun]⟩
      split at hok
      · next hlen =>
        rw [List.length_eq_zero.mp hlen] at hiss
        simp at hiss
      · next hlen => exact absurd hok (by simp)


/-- Concrete field list for the validation-mode witness: a required
string title and an optional number price. -/
def titleField : FieldDefinition := { name := S "title", type := S "string", required := true }

/-- Optional numeric price field for the validation-mode witness. -/
def priceField : FieldDefinition := { name := S "price", type := S "number" }

/-- Witness for C8 at the spec's example: required title omitted from a
price-only payload passes partial validation and fails full validation
naming title. -/
theorem validation_modes_witness :
    exceptOk (validatePartialData (generateSchema [titleField, priceField])
      [(S "price", .num 5)]) = true ∧
    Issue.mk (S "title") .missing ∈ exceptIssues (validateData
      (generateSchema [titleField, priceField]) [(S "price", .num 5)]) := by
  constructor
  · rw [validation_modes.1 [titleField, priceField] [(S "price", .num 5)]]
    rfl
  · exact validation_modes.2.1 [titleField, priceField] [(S "price", .num 5)] titleField
      (List.mem_cons_self _ _) rfl rfl rfl

/-- Projected data looks up exactly the keys that are both selected and
present in the original data. -/
theorem jsGet_filterEntityData (sel : List Str) (data : List (Str × JSValue)) (k : Str) :
    jsGet k (filterEntityData sel data) =
      if k ∈ sel then jsGet k data else none := by
  induction sel with
  | nil => simp [filterEntityData, jsGet]
  | cons f rest ih =>
    simp only [filterEntityData] at ih ⊢
    rw [List.filterMap_cons]
    cases hv : jsGet f data with
    | some v =>
      simp only [hv, Option.map_some']
      simp only [jsGet]
      by_cases hk : f = k
      · subst hk
        simp [hv]
      · simp only [if_neg hk, ih]
        by_cases hkr : k ∈ rest
        · simp [hkr, List.mem_cons, Ne.symm hk]
        · simp [hkr, List.mem_cons, Ne.symm hk]
    | none =>
      simp only [hv, Option.map_none']
      rw [ih]
      by_cases hk : f = k
      · subst hk
        by_cases hkr : f ∈ rest <;> simp [hkr, hv]
      · by_cases hkr : k ∈ rest <;> simp [hkr, Ne.symm hk]

/-- C9: with an empty or absent selection the records are returned
unchanged; otherwise each record keeps every field except data (id,
entityType, organizationId, timestamps), and its data is replaced by an
object whose lookups yield exactly the keys present in both the original
data and the selection — selected keys missing from the data are
silently absent, never defaulted or raised. -/
theorem filterSelectedFields_projection :
    (∀ es, filterSelectedFields es none = es) ∧
    (∀ es, filterSelectedFields es (some []) = es) ∧
    (∀ sel data k, jsGet k (filterEntityData sel data) =
      if k ∈ sel then jsGet k data else none) ∧
    (∀ (es : List EntityRecord) (sel : List Str), sel ≠ [] →
      List.Forall₂ (fun e e' : EntityRecord =>
        e'.id = e.id ∧ e'.entityType = e.entityType ∧
        e'.organizationId = e.organizationId ∧ e'.createdAt = e.createdAt ∧
        e'.updatedAt = e.updatedAt ∧
        ∀ k, jsGet k e'.data = if k ∈ sel then jsGet k e.data else none)
        es (filterSelectedFields es (some sel))) := by
  refine ⟨fun es => rfl, fun es => rfl, jsGet_filterEntityData, ?_⟩
  intro es sel hsel
  rw [show filterSelectedFields es (some sel) =
    es.map (fun e => { e with data := filterEntityData sel e.data }) from by
      simp [filterSelectedFields, List.length_eq_zero, hsel]]
  rw [List.forall₂_map_right_iff]
  rw [List.forall₂_same]
  intro e he
  exact ⟨rfl, rfl, rfl, rfl, rfl, fun k => jsGet_filterEntityData sel e.data k⟩

/-- Concrete record for the projection witness. -/
def sampleRecord : EntityRecord :=
  { id := S "r1", entityType := S "product", organizationId := S "o1",
    data := [(S "title", .str (S "X")), (S "price", .num 10)],
    createdAt := 0, updatedAt := 0 }

/-- Witness for C9 at the spec's example: selecting price keeps the
record's identity fields and drops title from data without error. -/
theorem filterSelectedFields_projection_witness :
    List.Forall₂ (fun e e' : EntityRecord =>
      e'.id = e.id ∧ e'.entityType = e.entityType ∧
      e'.organizationId = e.organizationId ∧ e'.createdAt = e.createdAt ∧
      e'.updatedAt = e.updatedAt ∧
      ∀ k, jsGet k e'.data = if k ∈ [S "price"] then jsGet k e.data else none)
      [sampleRecord] (filterSelectedFields [sampleRecord] (some [S "price"])) :=
  filterSelectedFields_projection.2.2.2 [sampleRecord] [S "price"] (by decide)


end SmeOS
